import Mathlib

set_option linter.unusedVariables false

/-- XML element tree, mirroring the shape that xml.etree.ElementTree.Element exposes to
epg_script.py: a tag, an attribute dictionary, optional text, and a list of child
elements. -/
inductive Element : Type where
  | mk (tag : String) (attrs : List (String × String)) (text : Option String)
      (children : List Element)
deriving Repr

def Element.tag : Element → String
  | .mk t _ _ _ => t

def Element.attrs : Element → List (String × String)
  | .mk _ a _ _ => a

def Element.text : Element → Option String
  | .mk _ _ x _ => x

def Element.children : Element → List Element
  | .mk _ _ _ c => c

/-- element.get(key): attribute lookup, None when the attribute is absent. -/
def Element.get (e : Element) (key : String) : Option String :=
  (e.attrs.find? (fun kv => kv.fst = key)).map (fun kv => kv.snd)

/-- element.findall(tag): the direct children carrying the given tag, in document
order. -/
def Element.findall (e : Element) (tag : String) : List Element :=
  e.children.filter (fun c => c.tag = tag)

/-- element.find(tag): the first direct child carrying the given tag, None when there is
none. -/
def Element.find (e : Element) (tag : String) : Option Element :=
  e.children.find? (fun c => c.tag = tag)

/-- Python truthiness of an ElementTree Element: Element.__bool__ is the child count
test len(element) != 0; the text is not considered. -/
def Element.truthy (e : Element) : Bool :=
  !e.children.isEmpty

/-- The whitespace characters removed by Python str.strip(). -/
def isPythonSpace (c : Char) : Bool :=
  c = ' ' || c = '\t' || c = '\n' || c = '\r' || c = Char.ofNat 11 || c = Char.ofNat 12

/-- Python str.strip(): remove leading and trailing whitespace. -/
def pyStrip (s : String) : String :=
  String.mk (((s.data.dropWhile isPythonSpace).reverse.dropWhile isPythonSpace).reverse)

/-- Iterating an open text file in Python yields newline-terminated lines; a final
unterminated line is yielded only when it is nonempty. -/
def pythonLinesAux : List Char → List Char → List String
  | [], acc => if acc.isEmpty then [] else [String.mk acc.reverse]
  | c :: rest, acc =>
    if c = '\n' then String.mk (acc.reverse ++ ['\n']) :: pythonLinesAux rest []
    else pythonLinesAux rest (c :: acc)

def pythonLines (s : String) : List String :=
  pythonLinesAux s.data []

/-- Lines 56-57 of epg_script.py: valid_tvg_ids = set(line.strip() for line in file).
The set is modelled by the list of stripped lines, whose membership relation is the
membership test of the Python set. -/
def valid_tvg_ids (fileContent : String) : List String :=
  (pythonLines fileContent).map pyStrip

/-- Outcome of requests.get(url) followed by raise_for_status(): either a raised
RequestException or the response body bytes. -/
inductive HttpResult : Type where
  | failure (detail : String)
  | success (body : List Nat)

/-- The external collaborators of epg_script.py: the HTTP transport, the gzip decoder
and the XML parser (requests, gzip.decompress, ET.fromstring), each able to fail. -/
structure Collab : Type where
  httpGet : String → HttpResult
  gzDecompress : List Nat → Except String (List Nat)
  parseXml : List Nat → Except String Element

/-- Lines 18-47 of epg_script.py: fetch_and_extract_xml. Every transport, decompression
or parse failure is caught and turned into None. -/
def fetch_and_extract_xml (env : Collab) (url : String) : Option Element :=
  match env.httpGet url with
  | .failure _ => none
  | .success body =>
    if url.endsWith ".gz" then
      match env.gzDecompress body with
      | .error _ => none
      | .ok decompressed_data =>
        match env.parseXml decompressed_data with
        | .error _ => none
        | .ok e => some e
    else
      match env.parseXml body with
      | .error _ => none
      | .ok e => some e

/-- Line 82 of epg_script.py as Python evaluates it: subtitle.text if subtitle else
the placeholder. The condition is the truthiness of the element (its child count), not
an is-not-None test; a result of none stands for the Python None that subtitle.text can
produce. -/
def subtitle_text (subtitle : Option Element) : Option String :=
  match subtitle with
  | none => some "No subtitle"
  | some st => if st.truthy then st.text else some "No subtitle"

/-- Line 83 of epg_script.py: programme.find(title).text = newText mutates the first
child tagged title. -/
def setFirstTitleText : List Element → String → List Element
  | [], _ => []
  | c :: rest, newText =>
    if c.tag = "title" then Element.mk c.tag c.attrs (some newText) c.children :: rest
    else c :: setFirstTitleText rest newText

def setTitleText (p : Element) (newText : String) : Element :=
  Element.mk p.tag p.attrs p.text (setFirstTitleText p.children newText)

/-- Lines 73-85 of epg_script.py, the body of the programme loop for one element:
ok none when the element is dropped, ok (some e) when e is appended to the output root,
and error when the Python code raises (concatenating None to a string on line 83). -/
def processProgramme (ids : List String) (programme : Element) :
    Except String (Option Element) :=
  match programme.get "channel" with
  | none => .ok none
  | some tvg_id =>
    if tvg_id ∈ ids then
      match programme.find "title" with
      | none => .ok none
      | some title =>
        match title.text with
        | none => .ok (some programme)
        | some title_text =>
          if title_text = "NHL Hockey" ∨ title_text = "Live: NFL Football" then
            match subtitle_text (programme.find "sub-title") with
            | none => .error "TypeError: can only concatenate str (not NoneType) to str"
            | some st => .ok (some (setTitleText programme (title_text ++ " " ++ st)))
          else .ok (some programme)
    else .ok none

/-- Lines 67-71 of epg_script.py, the channel loop test: a channel element is kept iff
its id attribute exists and is a member of the set. -/
def keepChannel (ids : List String) (channel : Element) : Bool :=
  match channel.get "id" with
  | none => false
  | some tvg_id => decide (tvg_id ∈ ids)

def processProgrammes (ids : List String) : List Element → Except String (List Element)
  | [] => .ok []
  | p :: rest =>
    match processProgramme ids p with
    | .error m => .error m
    | .ok r =>
      match processProgrammes ids rest with
      | .error m => .error m
      | .ok rs =>
        match r with
        | none => .ok rs
        | some e => .ok (e :: rs)

/-- Lines 67-85 of epg_script.py: the elements one successfully parsed source appends to
the output root, in append order: the matching channel elements first (in document
order), then the processed programme elements. -/
def processSource (ids : List String) (doc : Element) : Except String (List Element) :=
  match processProgrammes ids (doc.findall "programme") with
  | .error m => .error m
  | .ok progs => .ok ((doc.findall "channel").filter (keepChannel ids) ++ progs)

/-- Lines 61-85 of epg_script.py: the per-source aggregation loop, threading the
accumulating tv root. -/
def buildLoop (env : Collab) (ids : List String) :
    List String → Element → Except String Element
  | [], root => .ok root
  | url :: rest, root =>
    match fetch_and_extract_xml env url with
    | none => buildLoop env ids rest root
    | some epg_data =>
      match processSource ids epg_data with
      | .error e => .error e
      | .ok elems =>
        buildLoop env ids rest
          (Element.mk root.tag root.attrs root.text (root.children ++ elems))

/-- Lines 49-85 of epg_script.py: filter_and_build_epg, from the allow-list file content
and the url list to the final output root, or to the uncaught Python exception. -/
def filter_and_build_epg (env : Collab) (idsFileContent : String) (urls : List String) :
    Except String Element :=
  buildLoop env (valid_tvg_ids idsFileContent) urls (Element.mk "tv" [] none [])

/-- The elements one url contributes to the output root; a failed fetch contributes
nothing. -/
def sourceContribution (env : Collab) (ids : List String) (url : String) :
    Except String (List Element) :=
  match fetch_and_extract_xml env url with
  | none => .ok []
  | some epg_data => processSource ids epg_data

/-- XML escaping as ElementTree applies it when serializing: ampersand and angle
brackets everywhere, double quotes additionally inside attribute values. -/
def escapeXmlChar (inAttr : Bool) (c : Char) : String :=
  if c = '&' then "&amp;"
  else if c = '<' then "&lt;"
  else if c = '>' then "&gt;"
  else if inAttr ∧ c = '"' then "&quot;"
  else String.mk [c]

def escapeXml (inAttr : Bool) (s : String) : String :=
  String.join (s.data.map (escapeXmlChar inAttr))

mutual

/-- Serialization of one element as ElementTree.write renders it: attributes in order,
short form for an element with neither text nor children. -/
def serializeElem : Element → String
  | .mk tag attrs text children =>
    let attrStr := String.join (attrs.map
      (fun kv => " " ++ kv.fst ++ "=\"" ++ escapeXml true kv.snd ++ "\""))
    match text, children with
    | none, [] => "<" ++ tag ++ attrStr ++ " />"
    | _, _ =>
      "<" ++ tag ++ attrStr ++ ">" ++ escapeXml false (text.getD "") ++
        serializeList children ++ "</" ++ tag ++ ">"

def serializeList : List Element → String
  | [] => ""
  | e :: rest => serializeElem e ++ serializeList rest

end

/-- Lines 87-88 and 92-93 of epg_script.py: the bytes produced by
tree.write(..., encoding=utf-8, xml_declaration=True). -/
def serializeDoc (root : Element) : List Nat :=
  (String.toUTF8
      ("<?xml version=\x271.0\x27 encoding=\x27utf-8\x27?>\n" ++ serializeElem root)).toList.map
    (fun b => b.toNat)

/-- Modelled from the spec: the gzip encoder used on lines 91-93 (the Python gzip
module, an external collaborator per section 1 of the spec) is modelled as a lossless
code that prefixes the two gzip magic bytes. -/
def gzipCompress (bs : List Nat) : List Nat :=
  31 :: 139 :: bs

/-- Modelled from the spec: the decoder inverse to the modelled gzip encoder. -/
def gzipDecompress (bs : List Nat) : List Nat :=
  bs.drop 2

/-- Lines 87-88 of epg_script.py: the uncompressed XML output artifact. -/
def outputXmlBytes (root : Element) : List Nat :=
  serializeDoc root

/-- Lines 91-93 of epg_script.py: the compressed output artifact, the same tree
serialized by the same write call and streamed through the gzip encoder. -/
def outputGzBytes (root : Element) : List Nat :=
  gzipCompress (serializeDoc root)

/-- The attribute that gates inclusion in the output: id for channel elements, channel
for the others (in particular programme elements). -/
def identifierAttr (e : Element) : Option String :=
  if e.tag = "channel" then e.get "id" else e.get "channel"

/-- The per-source contributions of a url list, in source-list order; an error is the
uncaught exception of the first source whose programme loop raises. -/
def contributionsOf (env : Collab) (ids : List String) :
    List String → Except String (List (List Element))
  | [] => .ok []
  | url :: rest =>
    match sourceContribution env ids url with
    | .error m => .error m
    | .ok cs =>
      match contributionsOf env ids rest with
      | .error m => .error m
      | .ok css => .ok (cs :: css)

/-- Fixture: a title child element carrying the given text. -/
def titleElem (txt : Option String) : Element :=
  .mk "title" [] txt []

/-- Fixture: a sub-title child element with the given text and children. -/
def subtitleElem (txt : Option String) (cs : List Element) : Element :=
  .mk "sub-title" [] txt cs

/-- Fixture: an allow-listed programme element with no title child. -/
def progNoTitle : Element :=
  .mk "programme" [("channel", "x")] none []

/-- Fixture: a channel element with identifier x. -/
def chX : Element :=
  .mk "channel" [("id", "x")] none []

/-- Fixture: a channel element with identifier y. -/
def chY : Element :=
  .mk "channel" [("id", "y")] none []

/-- Fixture: a source document holding only the titleless programme. -/
def docC1 : Element :=
  .mk "tv" [] none [progNoTitle]

/-- Fixture: collaborators whose single source parses to docC1. -/
def envC1 : Collab :=
  ⟨fun _ => .success [], fun _ => .error "gz", fun _ => .ok docC1⟩

/-- Fixture: a source document holding one allow-listed channel. -/
def docC3 : Element :=
  .mk "tv" [] none [chX]

/-- Fixture: collaborators whose single source parses to docC3. -/
def envC3 : Collab :=
  ⟨fun _ => .success [], fun _ => .error "gz", fun _ => .ok docC3⟩

/-- Fixture: source A of the ordering scenario, contributing channel x. -/
def docA : Element :=
  .mk "tv" [] none [chX]

/-- Fixture: source B of the ordering scenario, contributing channel y. -/
def docB : Element :=
  .mk "tv" [] none [chY]

/-- Fixture: collaborators serving docA at url a and docB at any other url. -/
def envAB : Collab :=
  ⟨fun url => if url = "a" then .success [0] else .success [1],
   fun _ => .error "gz",
   fun body => if body = [0] then .ok docA else .ok docB⟩

/-- Fixture: collaborators whose transport always fails with a 404. -/
def envFail : Collab :=
  ⟨fun _ => .failure "404", fun _ => .ok [], fun _ => .ok docC3⟩

/-- Fixture: an allow-listed NHL Hockey programme whose sub-title node exists, carries
text, and has no child elements. -/
def progC2 : Element :=
  .mk "programme" [("channel", "x")] none
    [titleElem (some "NHL Hockey"), subtitleElem (some "Rangers vs Bruins") []]

/-- Fixture: what the script makes of progC2: the placeholder is concatenated although
the sub-title node exists and carries text. -/
def progC2out : Element :=
  .mk "programme" [("channel", "x")] none
    [titleElem (some "NHL Hockey No subtitle"), subtitleElem (some "Rangers vs Bruins") []]

/-- Fixture: an allow-listed NHL Hockey programme whose sub-title node has a child
element but no text. -/
def progC6 : Element :=
  .mk "programme" [("channel", "x")] none
    [titleElem (some "NHL Hockey"), subtitleElem none [.mk "icon" [] none []]]

/-- Fixture: an allow-listed programme whose sub-title node has a child element and
carries text. -/
def progC2w : Element :=
  .mk "programme" [("channel", "x")] none
    [titleElem (some "NHL Hockey"), subtitleElem (some "sub") [.mk "icon" [] none []]]

/-- Fixture: an allow-listed programme with an ordinary title. -/
def progC9 : Element :=
  .mk "programme" [("channel", "x")] none [titleElem (some "Regular Show")]

/-- Fixture: a programme with a title but no sub-title node. -/
def progC6w : Element :=
  .mk "programme" [("channel", "x")] none [titleElem (some "NHL Hockey")]

/-- Fixture: a channel element with no id attribute. -/
def chNoId : Element :=
  .mk "channel" [] none []

/-- Fixture: a programme element with no channel attribute. -/
def progNoChan : Element :=
  .mk "programme" [] none [titleElem (some "NHL Hockey")]

@[simp] theorem Element.tag_mk (t : String) (a : List (String × String))
    (x : Option String) (c : List Element) : (Element.mk t a x c).tag = t := rfl

@[simp] theorem Element.attrs_mk (t : String) (a : List (String × String))
    (x : Option String) (c : List Element) : (Element.mk t a x c).attrs = a := rfl

@[simp] theorem Element.text_mk (t : String) (a : List (String × String))
    (x : Option String) (c : List Element) : (Element.mk t a x c).text = x := rfl

@[simp] theorem Element.children_mk (t : String) (a : List (String × String))
    (x : Option String) (c : List Element) : (Element.mk t a x c).children = c := rfl

theorem setTitleText_tag (p : Element) (s : String) : (setTitleText p s).tag = p.tag := rfl

theorem setTitleText_attrs (p : Element) (s : String) :
    (setTitleText p s).attrs = p.attrs := rfl

theorem mem_findall_tag {doc e : Element} {t : String} (h : e ∈ doc.findall t) :
    e.tag = t := by
  unfold Element.findall at h
  have := List.mem_filter.mp h
  simpa using this.2

theorem mem_findall_mem {doc e : Element} {t : String} (h : e ∈ doc.findall t) :
    e ∈ doc.children := by
  unfold Element.findall at h
  exact (List.mem_filter.mp h).1

theorem keepChannel_sound {ids : List String} {c : Element} (h : keepChannel ids c = true) :
    ∃ i, c.get "id" = some i ∧ i ∈ ids := by
  cases hc : c.get "id" with
  | none => simp [keepChannel, hc] at h
  | some i => simp [keepChannel, hc] at h; exact ⟨i, rfl, h⟩

theorem processProgramme_sound {ids : List String} {p e : Element}
    (h : processProgramme ids p = .ok (some e)) :
    e.tag = p.tag ∧ e.attrs = p.attrs ∧ ∃ i, p.get "channel" = some i ∧ i ∈ ids := by
  cases hc : p.get "channel" with
  | none => simp [processProgramme, hc] at h
  | some tvg =>
    by_cases hm : tvg ∈ ids
    · cases ht : p.find "title" with
      | none => simp [processProgramme, hc, hm, ht] at h
      | some title =>
        cases htt : title.text with
        | none =>
          simp [processProgramme, hc, hm, ht, htt] at h
          subst h
          exact ⟨rfl, rfl, tvg, rfl, hm⟩
        | some t =>
          by_cases hspec : t = "NHL Hockey" ∨ t = "Live: NFL Football"
          · cases hst : subtitle_text (p.find "sub-title") with
            | none => simp [processProgramme, hc, hm, ht, htt, hspec, hst] at h
            | some s =>
              simp [processProgramme, hc, hm, ht, htt, hspec, hst] at h
              subst h
              exact ⟨setTitleText_tag p _, setTitleText_attrs p _, tvg, rfl, hm⟩
          · simp [processProgramme, hc, hm, ht, htt, hspec] at h
            subst h
            exact ⟨rfl, rfl, tvg, rfl, hm⟩
    · simp [processProgramme, hc, hm] at h

theorem processProgrammes_sound {ids : List String} :
    ∀ {ps es : List Element}, processProgrammes ids ps = .ok es →
      ∀ e ∈ es, ∃ p ∈ ps, processProgramme ids p = .ok (some e) := by
  intro ps
  induction ps with
  | nil =>
    intro es h e he
    simp [processProgrammes] at h
    subst h
    cases he
  | cons p rest ih =>
    intro es h e he
    cases hr : processProgramme ids p with
    | error m => simp [processProgrammes, hr] at h
    | ok r =>
      cases hrs : processProgrammes ids rest with
      | error m => simp [processProgrammes, hr, hrs] at h
      | ok rs =>
        cases r with
        | none =>
          simp [processProgrammes, hr, hrs] at h
          subst h
          obtain ⟨q, hq, hqe⟩ := ih hrs e he
          exact ⟨q, List.mem_cons_of_mem _ hq, hqe⟩
        | some e0 =>
          simp [processProgrammes, hr, hrs] at h
          subst h
          cases he with
          | head => exact ⟨p, List.mem_cons_self _ _, hr⟩
          | tail _ htl =>
            obtain ⟨q, hq, hqe⟩ := ih hrs e htl
            exact ⟨q, List.mem_cons_of_mem _ hq, hqe⟩

theorem processSource_sound {ids : List String} {doc : Element} {es : List Element}
    (h : processSource ids doc = .ok es) :
    ∀ e ∈ es, ∃ i, identifierAttr e = some i ∧ i ∈ ids := by
  intro e he
  cases hp : processProgrammes ids (doc.findall "programme") with
  | error m => simp [processSource, hp] at h
  | ok progs =>
    simp [processSource, hp] at h
    subst h
    rcases List.mem_append.mp he with hch | hpr
    · have hmem := (List.mem_filter.mp hch).1
      have hkeep : keepChannel ids e = true := (List.mem_filter.mp hch).2
      have htag : e.tag = "channel" := mem_findall_tag hmem
      obtain ⟨i, hi, him⟩ := keepChannel_sound hkeep
      exact ⟨i, by simp [identifierAttr, htag, hi], him⟩
    · obtain ⟨p, hp1, hp2⟩ := processProgrammes_sound hp e hpr
      obtain ⟨htag, hattrs, i, hi, him⟩ := processProgramme_sound hp2
      have hptag : p.tag = "programme" := mem_findall_tag hp1
      refine ⟨i, ?_, him⟩
      have : e.get "channel" = p.get "channel" := by
        unfold Element.get
        rw [hattrs]
      simp [identifierAttr, htag, hptag, this, hi]

theorem contributionsOf_mem {env : Collab} {ids : List String} :
    ∀ {urls : List String} {css : List (List Element)},
      contributionsOf env ids urls = .ok css →
      ∀ cs ∈ css, ∃ url ∈ urls, sourceContribution env ids url = .ok cs := by
  intro urls
  induction urls with
  | nil =>
    intro css h cs hcs
    simp [contributionsOf] at h
    subst h
    cases hcs
  | cons url rest ih =>
    intro css h cs hcs
    cases hu : sourceContribution env ids url with
    | error m => simp [contributionsOf, hu] at h
    | ok cs0 =>
      cases hr : contributionsOf env ids rest with
      | error m => simp [contributionsOf, hu, hr] at h
      | ok css0 =>
        simp [contributionsOf, hu, hr] at h
        subst h
        cases hcs with
        | head => exact ⟨url, List.mem_cons_self _ _, hu⟩
        | tail _ htl =>
          obtain ⟨u, h1, h2⟩ := ih hr cs htl
          exact ⟨u, List.mem_cons_of_mem _ h1, h2⟩

theorem buildLoop_decomp {env : Collab} {ids : List String} :
    ∀ {urls : List String} {acc root : Element},
      buildLoop env ids urls acc = .ok root →
      root.tag = acc.tag ∧ root.attrs = acc.attrs ∧ root.text = acc.text ∧
        ∃ css, contributionsOf env ids urls = .ok css ∧
          root.children = acc.children ++ css.flatten := by
  intro urls
  induction urls with
  | nil =>
    intro acc root h
    simp [buildLoop] at h
    subst h
    exact ⟨rfl, rfl, rfl, [], by simp [contributionsOf], by simp⟩
  | cons url rest ih =>
    intro acc root h
    cases hf : fetch_and_extract_xml env url with
    | none =>
      simp [buildLoop, hf] at h
      obtain ⟨h1, h2, h3, css, h4, h5⟩ := ih h
      refine ⟨h1, h2, h3, [] :: css, ?_, by simpa using h5⟩
      simp [contributionsOf, sourceContribution, hf, h4]
    | some doc =>
      cases hs : processSource ids doc with
      | error m => simp [buildLoop, hf, hs] at h
      | ok elems =>
        simp [buildLoop, hf, hs] at h
        obtain ⟨h1, h2, h3, css, h4, h5⟩ := ih h
        refine ⟨by simpa using h1, by simpa using h2, by simpa using h3,
          elems :: css, ?_, ?_⟩
        · simp [contributionsOf, sourceContribution, hf, hs, h4]
        · simp at h5
          rw [h5]
          simp

theorem output_sound {env : Collab} {fileContent : String} {urls : List String}
    {root : Element} (h : filter_and_build_epg env fileContent urls = .ok root) :
    ∀ e ∈ root.children,
      ∃ i, identifierAttr e = some i ∧ i ∈ valid_tvg_ids fileContent := by
  intro e he
  obtain ⟨_, _, _, css, hmap, hch⟩ := buildLoop_decomp h
  rw [hch] at he
  simp at he
  obtain ⟨cs, hcs, hecs⟩ := he
  obtain ⟨url, hurl, hcontrib⟩ := contributionsOf_mem hmap cs hcs
  cases hf : fetch_and_extract_xml env url with
  | none =>
    simp [sourceContribution, hf] at hcontrib
    subst hcontrib
    cases hecs
  | some doc =>
    simp [sourceContribution, hf] at hcontrib
    exact processSource_sound hcontrib e hecs

theorem buildLoop_skip {env : Collab} {ids : List String} {url : String}
    (hf : fetch_and_extract_xml env url = none) :
    ∀ (pre post : List String) (acc : Element),
      buildLoop env ids (pre ++ url :: post) acc = buildLoop env ids (pre ++ post) acc := by
  intro pre
  induction pre with
  | nil =>
    intro post acc
    simp [buildLoop, hf]
  | cons u pre ih =>
    intro post acc
    cases hu : fetch_and_extract_xml env u with
    | none => simp [buildLoop, hu, ih]
    | some doc =>
      cases hs : processSource ids doc with
      | error m => simp [buildLoop, hu, hs]
      | ok elems => simp [buildLoop, hu, hs, ih]

/-- Claim C1, counterexample: progNoTitle is an allow-listed programme with no title
child, yet the run output contains no element at all, so the element was not appended
(the claim says it is still appended unmodified). -/
theorem c1_counterexample :
    (progNoTitle.get "channel" = some "x" ∧ "x" ∈ valid_tvg_ids "x\n" ∧
      progNoTitle.find "title" = none) ∧
    filter_and_build_epg envC1 "x\n" ["u"] = .ok (Element.mk "tv" [] none []) :=
  ⟨⟨rfl, by decide, rfl⟩, rfl⟩

/-- Claim C1, amended: for every programme element without a title child node, the
programme loop body drops the element entirely: the append on line 85 sits inside the
if title is not None block, so a missing title skips the append as well as the
transformation. -/
theorem c1_no_title_dropped (ids : List String) (p : Element)
    (h : p.find "title" = none) : processProgramme ids p = .ok none := by
  cases hc : p.get "channel" with
  | none => simp [processProgramme, hc]
  | some tvg =>
    by_cases hm : tvg ∈ ids
    · simp [processProgramme, hc, hm, h]
    · simp [processProgramme, hc, hm]

theorem c1_witness : processProgramme ["x"] progNoTitle = .ok none :=
  c1_no_title_dropped ["x"] progNoTitle rfl

/-- Claim C2, counterexample: the programme progC2 has title NHL Hockey and a sub-title
node whose text is Rangers vs Bruins; because line 82 tests element truthiness (child
count) rather than node presence, the script appends the placeholder and the output
title text is NHL Hockey No subtitle, not NHL Hockey Rangers vs Bruins as the claim
states. -/
theorem c2_counterexample :
    processProgramme ["x"] progC2 = .ok (some progC2out) ∧
    (progC2out.find "title").map Element.text = some (some "NHL Hockey No subtitle") ∧
    "NHL Hockey No subtitle" ≠ "NHL Hockey Rangers vs Bruins" :=
  ⟨rfl, rfl, by decide⟩

/-- Claim C2, amended: for an allow-listed programme with special-cased title text, the
sub-title text is concatenated only when the sub-title node has at least one child
element; a sub-title node that is absent or has no child elements yields the literal
placeholder No subtitle, even when it exists and carries text. -/
theorem c2_subtitle_rewrite (ids : List String) (p title : Element) (tvg t : String)
    (hc : p.get "channel" = some tvg) (hm : tvg ∈ ids)
    (ht : p.find "title" = some title) (htt : title.text = some t)
    (hspec : t = "NHL Hockey" ∨ t = "Live: NFL Football") :
    (p.find "sub-title" = none →
      processProgramme ids p = .ok (some (setTitleText p (t ++ " " ++ "No subtitle")))) ∧
    (∀ st, p.find "sub-title" = some st → st.children = [] →
      processProgramme ids p = .ok (some (setTitleText p (t ++ " " ++ "No subtitle")))) ∧
    (∀ st s, p.find "sub-title" = some st → st.children ≠ [] → st.text = some s →
      processProgramme ids p = .ok (some (setTitleText p (t ++ " " ++ s)))) := by
  refine ⟨?_, ?_, ?_⟩
  · intro hst
    simp [processProgramme, hc, hm, ht, htt, hspec, subtitle_text, hst]
  · intro st hst hch
    simp [processProgramme, hc, hm, ht, htt, hspec, subtitle_text, hst,
      Element.truthy, hch]
  · intro st s hst hch hsttext
    have hne : st.children.isEmpty = false := by
      simpa [List.isEmpty_iff] using hch
    simp [processProgramme, hc, hm, ht, htt, hspec, subtitle_text, hst,
      Element.truthy, hne, hsttext]

theorem c2_witness :
    processProgramme ["x"] progC2w =
      .ok (some (setTitleText progC2w ("NHL Hockey" ++ " " ++ "sub"))) :=
  (c2_subtitle_rewrite ["x"] progC2w (titleElem (some "NHL Hockey")) "x" "NHL Hockey"
      rfl (by decide) rfl rfl (Or.inl rfl)).2.2
    (subtitleElem (some "sub") [.mk "icon" [] none []]) "sub" rfl (by simp [subtitleElem])
    rfl

/-- Claim C6, counterexample: on an allow-listed programme whose special-cased title
has a sub-title node with a child element but absent text, line 83 concatenates a
string with None and the script raises a TypeError, so title normalization is not
total. -/
theorem c6_counterexample :
    processProgramme ["x"] progC6 =
      .error "TypeError: can only concatenate str (not NoneType) to str" := rfl

/-- Claim C6, amended: computing the normalized title never raises provided every
sub-title node that is truthy (has at least one child element) also carries text; the
only failing shape is a special-cased title whose sub-title node has child elements but
no text. -/
theorem c6_normalize_total (ids : List String) (p : Element)
    (hsub : ∀ st, p.find "sub-title" = some st → st.truthy = true → st.text ≠ none) :
    ∃ r, processProgramme ids p = .ok r := by
  cases hc : p.get "channel" with
  | none => exact ⟨none, by simp [processProgramme, hc]⟩
  | some tvg =>
    by_cases hm : tvg ∈ ids
    · cases ht : p.find "title" with
      | none => exact ⟨none, by simp [processProgramme, hc, hm, ht]⟩
      | some title =>
        cases htt : title.text with
        | none => exact ⟨some p, by simp [processProgramme, hc, hm, ht, htt]⟩
        | some t =>
          by_cases hspec : t = "NHL Hockey" ∨ t = "Live: NFL Football"
          · cases hst : p.find "sub-title" with
            | none =>
              refine ⟨some (setTitleText p (t ++ " " ++ "No subtitle")), ?_⟩
              simp [processProgramme, hc, hm, ht, htt, hspec, subtitle_text, hst]
            | some st =>
              cases htr : st.truthy with
              | false =>
                refine ⟨some (setTitleText p (t ++ " " ++ "No subtitle")), ?_⟩
                simp [processProgramme, hc, hm, ht, htt, hspec, subtitle_text, hst, htr]
              | true =>
                cases hsttext : st.text with
                | none => exact absurd hsttext (hsub st hst htr)
                | some sx =>
                  refine ⟨some (setTitleText p (t ++ " " ++ sx)), ?_⟩
                  simp [processProgramme, hc, hm, ht, htt, hspec, subtitle_text, hst,
                    htr, hsttext]
          · exact ⟨some p, by simp [processProgramme, hc, hm, ht, htt, hspec]⟩
    · exact ⟨none, by simp [processProgramme, hc, hm]⟩

theorem c6_witness : ∃ r, processProgramme ["x"] progC6w = .ok r :=
  c6_normalize_total ["x"] progC6w
    (fun st hst htr =>
      Option.noConfusion (show (none : Option Element) = some st from hst))

/-- Claim C9: for every allow-listed programme whose title text is neither NHL Hockey
nor Live: NFL Football, the programme element is appended unchanged. -/
theorem c9_other_titles_unchanged (ids : List String) (p title : Element) (tvg t : String)
    (hc : p.get "channel" = some tvg) (hm : tvg ∈ ids)
    (ht : p.find "title" = some title) (htt : title.text = some t)
    (h1 : t ≠ "NHL Hockey") (h2 : t ≠ "Live: NFL Football") :
    processProgramme ids p = .ok (some p) := by
  have hspec : ¬(t = "NHL Hockey" ∨ t = "Live: NFL Football") := by tauto
  simp [processProgramme, hc, hm, ht, htt, hspec]

theorem c9_witness : processProgramme ["x"] progC9 = .ok (some progC9) :=
  c9_other_titles_unchanged ["x"] progC9 (titleElem (some "Regular Show")) "x"
    "Regular Show" rfl (by decide) rfl rfl (by decide) (by decide)

/-- Claim C3: for every run and every element in the final output document, its
identifier attribute (id for channel elements, channel for programme elements) is
present and is a member of the allow-list set; nothing outside the allow-list is ever
appended. -/
theorem c3_output_allowlisted (env : Collab) (fileContent : String) (urls : List String)
    (root : Element) (h : filter_and_build_epg env fileContent urls = .ok root) :
    ∀ e ∈ root.children,
      ∃ i, identifierAttr e = some i ∧ i ∈ valid_tvg_ids fileContent :=
  output_sound h

theorem c3_witness :
    ∃ i, identifierAttr chX = some i ∧ i ∈ valid_tvg_ids "x\n" :=
  c3_output_allowlisted envC3 "x\n" ["u"] (Element.mk "tv" [] none [chX]) rfl chX
    (by simp)

/-- Claim C4: output order is stable: the children of the output root are exactly the
per-source contributions flattened in source-list order, and each per-source
contribution lists the matching channel elements (document order, filter preserves it)
before the processed programme elements of the same source. -/
theorem c4_ordering (env : Collab) (fileContent : String) (urls : List String)
    (root : Element) (h : filter_and_build_epg env fileContent urls = .ok root) :
    (∃ css, contributionsOf env (valid_tvg_ids fileContent) urls = .ok css ∧
      root.children = css.flatten) ∧
    (∀ url doc progs, fetch_and_extract_xml env url = some doc →
      processProgrammes (valid_tvg_ids fileContent) (doc.findall "programme") = .ok progs →
      sourceContribution env (valid_tvg_ids fileContent) url =
        .ok ((doc.findall "channel").filter (keepChannel (valid_tvg_ids fileContent))
          ++ progs)) := by
  constructor
  · obtain ⟨_, _, _, css, h4, h5⟩ := buildLoop_decomp h
    exact ⟨css, h4, by simpa using h5⟩
  · intro url doc progs hf hp
    simp [sourceContribution, hf, processSource, hp]

theorem c4_witness :
    filter_and_build_epg envAB "x\ny\n" ["a", "b"] =
      .ok (Element.mk "tv" [] none [chX, chY]) ∧
    (∃ css, contributionsOf envAB (valid_tvg_ids "x\ny\n") ["a", "b"] = .ok css ∧
      (Element.mk "tv" [] none [chX, chY]).children = css.flatten) :=
  ⟨rfl,
    (c4_ordering envAB "x\ny\n" ["a", "b"] (Element.mk "tv" [] none [chX, chY]) rfl).1⟩

/-- Claim C5: every transport, decompression or parse failure makes
fetch_and_extract_xml return the failure value none instead of raising, and a url whose
fetch yields none contributes no element and leaves the rest of the url list processed
exactly as if that url were absent. -/
theorem c5_error_isolation (env : Collab) (url : String) :
    (∀ d, env.httpGet url = .failure d → fetch_and_extract_xml env url = none) ∧
    (∀ body d, env.httpGet url = .success body → url.endsWith ".gz" = true →
      env.gzDecompress body = .error d → fetch_and_extract_xml env url = none) ∧
    (∀ body data d, env.httpGet url = .success body → url.endsWith ".gz" = true →
      env.gzDecompress body = .ok data → env.parseXml data = .error d →
      fetch_and_extract_xml env url = none) ∧
    (∀ body d, env.httpGet url = .success body → url.endsWith ".gz" = false →
      env.parseXml body = .error d → fetch_and_extract_xml env url = none) ∧
    (∀ fileContent pre post, fetch_and_extract_xml env url = none →
      filter_and_build_epg env fileContent (pre ++ url :: post) =
        filter_and_build_epg env fileContent (pre ++ post)) := by
  refine ⟨?_, ?_, ?_, ?_, ?_⟩
  · intro d hd
    simp [fetch_and_extract_xml, hd]
  · intro body d h1 h2 h3
    simp [fetch_and_extract_xml, h1, h2, h3]
  · intro body data d h1 h2 h3 h4
    simp [fetch_and_extract_xml, h1, h2, h3, h4]
  · intro body d h1 h2 h3
    simp [fetch_and_extract_xml, h1, h2, h3]
  · intro fileContent pre post hf
    unfold filter_and_build_epg
    exact buildLoop_skip hf pre post _

theorem c5_witness :
    fetch_and_extract_xml envFail "u" = none ∧
    filter_and_build_epg envFail "x\n" ([] ++ "u" :: ["w"]) =
      filter_and_build_epg envFail "x\n" ([] ++ ["w"]) :=
  ⟨(c5_error_isolation envFail "u").1 "404" rfl,
    (c5_error_isolation envFail "u").2.2.2.2 "x\n" [] ["w"]
      ((c5_error_isolation envFail "u").1 "404" rfl)⟩

/-- Claim C7: the loaded allow-list is exactly the set of file lines each stripped of
surrounding whitespace (duplicates collapse because only membership matters), and
membership is plain string equality with no further normalization. -/
theorem c7_allowlist (fileContent : String) (x : String) :
    x ∈ valid_tvg_ids fileContent ↔
      ∃ l ∈ pythonLines fileContent, pyStrip l = x := by
  simp [valid_tvg_ids, List.mem_map]

theorem c7_witness : "nbc" ∈ valid_tvg_ids " nbc \nNBC\n" :=
  (c7_allowlist " nbc \nNBC\n" "nbc").mpr ⟨" nbc \n", by decide, rfl⟩

/-- Claim C8: the two output artifacts serialize the same document identically: both
writes serialize the same tree with the same arguments, so decompressing the gzip
artifact yields exactly the bytes of the uncompressed artifact. -/
theorem c8_gzip_roundtrip (root : Element) :
    gzipDecompress (outputGzBytes root) = outputXmlBytes root := by
  simp [outputGzBytes, outputXmlBytes, gzipCompress, gzipDecompress]

/-- Claim C10: a channel element lacking an id attribute and a programme element
lacking a channel attribute are always dropped (the missing attribute lookup yields a
non-member value, never an error), and consequently no element of the output document
lacks its identifier attribute. -/
theorem c10_missing_identifier (ids : List String) (c p : Element) (env : Collab)
    (fileContent : String) (urls : List String) (root : Element) :
    (c.get "id" = none → keepChannel ids c = false) ∧
    (p.get "channel" = none → processProgramme ids p = .ok none) ∧
    (filter_and_build_epg env fileContent urls = .ok root →
      ∀ e ∈ root.children, identifierAttr e ≠ none) := by
  refine ⟨?_, ?_, ?_⟩
  · intro h
    simp [keepChannel, h]
  · intro h
    simp [processProgramme, h]
  · intro h e he
    obtain ⟨i, hi, _⟩ := output_sound h e he
    simp [hi]

theorem c10_witness :
    keepChannel ["x"] chNoId = false ∧
    processProgramme ["x"] progNoChan = .ok none ∧
    identifierAttr chX ≠ none :=
  ⟨(c10_missing_identifier ["x"] chNoId progNoChan envC3 "x\n" ["u"]
      (Element.mk "tv" [] none [chX])).1 rfl,
    (c10_missing_identifier ["x"] chNoId progNoChan envC3 "x\n" ["u"]
      (Element.mk "tv" [] none [chX])).2.1 rfl,
    (c10_missing_identifier ["x"] chNoId progNoChan envC3 "x\n" ["u"]
      (Element.mk "tv" [] none [chX])).2.2 rfl chX (by simp)⟩
